import Mathlib

/-!
Shallow embedding of `packages/backend/src/server/StripeWebhookServerService.ts`
(the Stripe subscription webhook endpoint of this Misskey fork).

The data model mirrors the persisted entities the handler touches:
users (`subscriptionStatus`, `subscriptionPlanId`, `stripeSubscriptionId`),
user profiles (`stripeCustomerId`), the subscription-plan catalog
(`stripePriceId` → `roleId`), and the role-assignment store.  Repository
point lookups become `List.find?`, TypeORM `update` becomes a map over the
user table, and the role service becomes append/filter on an assignment
list.  Effects that the claims talk about (repository reads and writes,
role-service reads, notifications, log lines, the HTTP status codes set on
the reply) are recorded in the result records.  Exceptions
(`findOneByOrFail` misses, the profile-not-found throw in
`preprocessEvent`) are modelled with `Except`; the error payload of the
top-level handler carries the reply status code that had been set at the
moment of the throw.
-/

namespace StripeWebhook

/-- Catalog row: maps a Stripe price id to an internal role id
(`subscription_plan` table). -/
structure SubscriptionPlan where
  id : Nat
  stripePriceId : String
  roleId : Nat
deriving DecidableEq, Repr

/-- The columns of the `user` row that the webhook handler reads or writes. -/
structure MiUser where
  id : Nat
  subscriptionStatus : String
  subscriptionPlanId : Option Nat
  stripeSubscriptionId : Option String
deriving DecidableEq, Repr

/-- The columns of the `user_profile` row the handler reads. -/
structure MiUserProfile where
  userId : Nat
  stripeCustomerId : String
deriving DecidableEq, Repr

/-- The persistent state visible to the handler: the three repositories and
the role-assignment store (pairs of user id and role id). -/
structure DB where
  users : List MiUser
  userProfiles : List MiUserProfile
  subscriptionPlans : List SubscriptionPlan
  roleAssignments : List (Nat × Nat)
deriving DecidableEq, Repr

/-- The fields of the Stripe subscription object that the handler reads:
`subscription.id`, `subscription.customer`, `subscription.status`,
`subscription.items.data[0].plan.id` and `subscription.cancel_at_period_end`. -/
structure StripeSubscription where
  id : String
  customer : String
  status : String
  priceId : String
  cancelAtPeriodEnd : Bool
deriving DecidableEq, Repr

/-- The Stripe event envelope: `event.type`, `event.data.object`, and whether
`event.data.previous_attributes` is present with a `status` field. -/
structure StripeEvent where
  type : String
  obj : StripeSubscription
  prevHasStatus : Bool
deriving DecidableEq, Repr

/-- JavaScript truthiness of a nullable string column: `null`/`undefined` and
the empty string are falsy. -/
def strTruthy : Option String → Bool
  | none => false
  | some s => s ≠ ""

/-- `userProfilesRepository.findOneBy({ stripeCustomerId: customer })`. -/
def findUserProfile (db : DB) (customer : String) : Option MiUserProfile :=
  db.userProfiles.find? (fun p => p.stripeCustomerId == customer)

/-- `subscriptionPlansRepository.findOneByOrFail({ stripePriceId: ... })`,
before the `orFail` part. -/
def findPlanByPrice (db : DB) (priceId : String) : Option SubscriptionPlan :=
  db.subscriptionPlans.find? (fun p => p.stripePriceId == priceId)

/-- `subscriptionPlansRepository.findOneByOrFail({ id: ... })`, before the
`orFail` part. -/
def findPlanById (db : DB) (planId : Nat) : Option SubscriptionPlan :=
  db.subscriptionPlans.find? (fun p => p.id == planId)

/-- `usersRepository.findOneByOrFail({ id: userId })`, before the `orFail`
part. -/
def findUser (db : DB) (userId : Nat) : Option MiUser :=
  db.users.find? (fun u => u.id == userId)

/-- `roleService.getUserRoles(userId)` projected to the role ids the handler
compares (`role.id`). -/
def getUserRoles (db : DB) (userId : Nat) : List Nat :=
  (db.roleAssignments.filter (fun a => a.1 == userId)).map (fun a => a.2)

/-- `roleService.assign(userId, roleId)`: record the assignment. -/
def assignRole (db : DB) (userId roleId : Nat) : DB :=
  { db with roleAssignments := db.roleAssignments ++ [(userId, roleId)] }

/-- `roleService.unassign(userId, roleId)`: drop the assignment. -/
def unassignRole (db : DB) (userId roleId : Nat) : DB :=
  { db with roleAssignments :=
      db.roleAssignments.filter (fun a => ¬(a.1 = userId ∧ a.2 = roleId)) }

/-- `usersRepository.update({ id: userId }, ...)`: apply the partial update
`f` to every user row with the given id. -/
def updateUserRow (db : DB) (userId : Nat) (f : MiUser → MiUser) : DB :=
  { db with users := db.users.map (fun u => if u.id == userId then f u else u) }

/-- The `for (const role of roles)` loop of the `updated` case, plan-newly-set
branch: unassign every role of the snapshot that belongs to the catalog
(`roleIds`) and is not the new plan's role. -/
def unassignOtherPlanRoles (db : DB) (userId : Nat) (roleIds : List Nat)
    (keepRoleId : Nat) (roles : List Nat) : DB :=
  roles.foldl (fun d r =>
    if roleIds.contains r ∧ r ≠ keepRoleId then unassignRole d userId r else d) db

/-- The guard shared by the `updated` and `deleted` cases:
`user.stripeSubscriptionId && user.stripeSubscriptionId !== subscription.id`
(JS truthiness on the stored id, strict inequality on the event id). -/
def foreignGuard (user : MiUser) (sub : StripeSubscription) : Bool :=
  strTruthy user.stripeSubscriptionId && user.stripeSubscriptionId ≠ some sub.id

/-- Observable outcome of one of the three transition cases: the resulting
database, the repository reads and writes it performed, the
`roleService.getUserRoles` calls, the userIds it published `meUpdated`
notifications for, and the info-level log lines. -/
structure TxResult where
  db : DB
  repoReads : Nat
  repoWrites : Nat
  roleReads : Nat
  notifs : List Nat
  infos : Nat
deriving DecidableEq, Repr

/-- `case 'customer.subscription.created'` of the webhook handler. -/
def handleCreated (db : DB) (userId : Nat) (sub : StripeSubscription) :
    Except Unit TxResult := do
  let some subscriptionPlan := findPlanByPrice db sub.priceId | throw ()
  let some user := findUser db userId | throw ()
  if user.stripeSubscriptionId.isSome then
    -- `if (user.stripeSubscriptionId != null)`: already processed, log info
    -- and return without further writes.
    return { db := db, repoReads := 2, repoWrites := 0, roleReads := 0,
             notifs := [], infos := 1 }
  else
    let (db1, roleReads1, infos1) :=
      if sub.status = "active" then
        let roles := getUserRoles db userId
        if roles.contains subscriptionPlan.roleId then (db, 1, 0)
        else (assignRole db userId subscriptionPlan.roleId, 1, 1)
      else (db, 0, 0)
    let db2 := updateUserRow db1 userId (fun u =>
      { u with subscriptionStatus := sub.status,
               subscriptionPlanId := some subscriptionPlan.id,
               stripeSubscriptionId := some sub.id })
    return { db := db2, repoReads := 2, repoWrites := 1, roleReads := roleReads1,
             notifs := [userId], infos := infos1 }

/-- The role-reconciliation block guarded by `subscription.status ===
'active'` in the `updated` case.  Returns the new state together with the
extra repository reads, the role-service reads, and the info log lines it
produced; the error is the `findOneByOrFail` throw for a dangling old plan
reference. -/
def updatedActiveStep (db : DB) (user : MiUser)
    (subscriptionPlan : SubscriptionPlan) (prevHasStatus : Bool) :
    Except Unit (DB × Nat × Nat × Nat) :=
  if user.subscriptionPlanId.isNone then
    -- plan newly set: unassign every other catalog role, then assign
    let roleIds := db.subscriptionPlans.map (fun p => p.roleId)
    let roles := getUserRoles db user.id
    let dbA := unassignOtherPlanRoles db user.id roleIds
      subscriptionPlan.roleId roles
    let unassignCount :=
      (roles.filter (fun r =>
        roleIds.contains r ∧ r ≠ subscriptionPlan.roleId)).length
    if roles.contains subscriptionPlan.roleId then
      .ok (dbA, 1, 1, unassignCount)
    else
      .ok (assignRole dbA user.id subscriptionPlan.roleId, 1, 1,
           unassignCount + 1)
  else if some subscriptionPlan.id ≠ user.subscriptionPlanId then
    -- plan changed: unassign the old plan role, assign the new one
    match findPlanById db (user.subscriptionPlanId.getD 0) with
    | none => .error ()
    | some oldSubscriptionPlan =>
      let roles := getUserRoles db user.id
      let (dbA, infosA) :=
        if roles.contains oldSubscriptionPlan.roleId then
          (unassignRole db user.id oldSubscriptionPlan.roleId, 1)
        else (db, 0)
      if roles.contains subscriptionPlan.roleId then
        .ok (dbA, 1, 1, infosA)
      else
        .ok (assignRole dbA user.id subscriptionPlan.roleId, 1, 1, infosA + 1)
  else if prevHasStatus then
    -- only the status changed: ensure the current plan role is granted
    let roles := getUserRoles db user.id
    if roles.contains subscriptionPlan.roleId then
      .ok (db, 0, 1, 0)
    else
      .ok (assignRole db user.id subscriptionPlan.roleId, 0, 1, 1)
  else
    .ok (db, 0, 0, 0)

/-- The partial update written to the user row by the `updated` case
(`undefined` on the external id, meaning "leave the column unchanged", is
taken when the previously read `user.stripeSubscriptionId` is truthy). -/
def updatedRowPatch (sub : StripeSubscription) (user : MiUser)
    (subscriptionPlan : SubscriptionPlan) (u : MiUser) : MiUser :=
  { u with subscriptionStatus := sub.status,
           subscriptionPlanId :=
             if sub.status ≠ "incomplete_expired" then
               some subscriptionPlan.id
             else none,
           stripeSubscriptionId :=
             if sub.status ≠ "incomplete_expired" then
               if strTruthy user.stripeSubscriptionId then
                 u.stripeSubscriptionId
               else some sub.id
             else none }

/-- `case 'customer.subscription.updated'` of the webhook handler. -/
def handleUpdated (db : DB) (userId : Nat) (sub : StripeSubscription)
    (prevHasStatus : Bool) : Except Unit TxResult :=
  match findUser db userId with
  | none => .error ()
  | some user =>
    match findPlanByPrice db sub.priceId with
    | none => .error ()
    | some subscriptionPlan =>
      if foreignGuard user sub then
        .ok { db := db, repoReads := 2, repoWrites := 0, roleReads := 0,
              notifs := [], infos := 0 }
      else if sub.status = "active" then
        match updatedActiveStep db user subscriptionPlan prevHasStatus with
        | .error _ => .error ()
        | .ok (db1, extraReads, roleReads1, infos1) =>
          let db2 := updateUserRow db1 user.id
            (updatedRowPatch sub user subscriptionPlan)
          .ok { db := db2, repoReads := 2 + extraReads, repoWrites := 1,
                roleReads := roleReads1, notifs := [user.id], infos := infos1 }
      else if sub.cancelAtPeriodEnd then
        -- pending cancellation: the later deleted event finalizes it
        .ok { db := db, repoReads := 2, repoWrites := 0, roleReads := 0,
              notifs := [], infos := 0 }
      else
        let db2 := updateUserRow db user.id
          (updatedRowPatch sub user subscriptionPlan)
        .ok { db := db2, repoReads := 2, repoWrites := 1, roleReads := 0,
              notifs := [user.id], infos := 0 }

/-- `case 'customer.subscription.deleted'` of the webhook handler. -/
def handleDeleted (db : DB) (userId : Nat) (sub : StripeSubscription) :
    Except Unit TxResult := do
  let some subscriptionPlan := findPlanByPrice db sub.priceId | throw ()
  let some user := findUser db userId | throw ()
  if foreignGuard user sub then
    return { db := db, repoReads := 2, repoWrites := 0, roleReads := 0,
             notifs := [], infos := 0 }
  else
    let roles := getUserRoles db userId
    let (db1, infos1) :=
      if roles.contains subscriptionPlan.roleId then
        (unassignRole db userId subscriptionPlan.roleId, 1)
      else (db, 0)
    let db2 := updateUserRow db1 userId (fun u =>
      { u with subscriptionStatus := sub.status,
               subscriptionPlanId := none,
               stripeSubscriptionId := none })
    return { db := db2, repoReads := 2, repoWrites := 1, roleReads := 1,
             notifs := [userId], infos := infos1 }

/-- The Stripe configuration check of the route handler:
`this.config.stripe && this.config.stripe.secretKey &&
this.config.stripe.webhookSecret`. -/
structure StripeConfig where
  configured : Bool
deriving DecidableEq, Repr

/-- One incoming `POST /webhook` request as the handler observes it: whether
`request.rawBody` is non-empty, whether the `stripe-signature` header is
present, whether `stripe.webhooks.constructEvent` succeeds (signature
verification and parsing are delegated to the Stripe SDK), and the parsed
event if it does. -/
structure WebhookRequest where
  hasBody : Bool
  hasSignature : Bool
  signatureValid : Bool
  event : StripeEvent
deriving DecidableEq, Repr

/-- Observable outcome of the whole route handler: the final reply status
code that was set, plus the accumulated effects (same counters as
`TxResult`, with warning and error log lines added). -/
structure HandlerResult where
  db : DB
  status : Nat
  repoReads : Nat
  repoWrites : Nat
  roleReads : Nat
  notifs : List Nat
  warnings : Nat
  infos : Nat
  errors : Nat
deriving DecidableEq, Repr

/-- Lift a transition outcome into the route handler's result: the reply
status 204 was set just after preprocessing (line 100), and preprocessing
itself performed one repository read (the user-profile lookup). -/
def liftTx (warnings : Nat) (t : TxResult) : HandlerResult :=
  { db := t.db, status := 204, repoReads := 1 + t.repoReads,
    repoWrites := t.repoWrites, roleReads := t.roleReads,
    notifs := t.notifs, warnings := warnings, infos := t.infos, errors := 0 }

/-- The `fastify.post('/webhook', ...)` handler.  An `Except.error` is a
thrown exception escaping the handler; its payload is the reply status code
that had been set when the throw happened (`none` when the
profile-not-found throw in `preprocessEvent` fires before `reply.code(204)`,
`some 204` when a `findOneByOrFail` inside a transition throws after it). -/
def webhookPost (cfg : StripeConfig) (req : WebhookRequest) (db : DB) :
    Except (Option Nat) HandlerResult :=
  if ¬cfg.configured then
    .ok { db := db, status := 503, repoReads := 0, repoWrites := 0,
          roleReads := 0, notifs := [], warnings := 0, infos := 0, errors := 1 }
  else if ¬req.hasBody then
    .ok { db := db, status := 400, repoReads := 0, repoWrites := 0,
          roleReads := 0, notifs := [], warnings := 0, infos := 0, errors := 1 }
  else if ¬req.hasSignature then
    .ok { db := db, status := 400, repoReads := 0, repoWrites := 0,
          roleReads := 0, notifs := [], warnings := 0, infos := 0, errors := 1 }
  else if ¬req.signatureValid then
    .ok { db := db, status := 400, repoReads := 0, repoWrites := 0,
          roleReads := 0, notifs := [], warnings := 0, infos := 0, errors := 1 }
  else
    -- preprocessEvent: resolve the customer to a user profile (one read);
    -- a miss logs a warning and throws before any reply code is set.
    match findUserProfile db req.event.obj.customer with
    | none => .error none
    | some userProfile =>
      -- reply.code(204) is set here, before the switch on event.type
      match req.event.type with
      | "customer.subscription.created" =>
        match handleCreated db userProfile.userId req.event.obj with
        | .ok t => .ok (liftTx 0 t)
        | .error _ => .error (some 204)
      | "customer.subscription.updated" =>
        match handleUpdated db userProfile.userId req.event.obj
            req.event.prevHasStatus with
        | .ok t => .ok (liftTx 0 t)
        | .error _ => .error (some 204)
      | "customer.subscription.deleted" =>
        match handleDeleted db userProfile.userId req.event.obj with
        | .ok t => .ok (liftTx 0 t)
        | .error _ => .error (some 204)
      | _ =>
        -- Unhandled event type: log a warning and reply.code(400).
        .ok { db := db, status := 400, repoReads := 1, repoWrites := 0,
              roleReads := 0, notifs := [], warnings := 1, infos := 0,
              errors := 0 }

/-- Whether a role id is the role of some catalog plan. -/
def isCatalogRole (db : DB) (r : Nat) : Bool :=
  db.subscriptionPlans.any (fun p => p.roleId == r)

/-- The role ids a user holds that belong to some catalog plan: the user's
"subscription-granted" roles. -/
def subRoleIds (db : DB) (userId : Nat) : List Nat :=
  (getUserRoles db userId).filter (fun r => isCatalogRole db r)

/-- The role ids a user is entitled to by their stored `subscriptionPlanId`:
the role of that catalog plan, or nothing when the reference is null (or
dangling). -/
def planRoleIds (db : DB) (userId : Nat) : List Nat :=
  match findUser db userId with
  | none => []
  | some u =>
    match u.subscriptionPlanId with
    | none => []
    | some pid =>
      match findPlanById db pid with
      | none => []
      | some p => [p.roleId]

/-- The reconciliation invariant of the spec: the subscription-granted roles
a user holds are exactly those tied to their current `subscriptionPlanId`. -/
def subRoleInvariant (db : DB) (userId : Nat) : Bool :=
  (subRoleIds db userId).all (fun r => (planRoleIds db userId).contains r) &&
  (planRoleIds db userId).all (fun r => (subRoleIds db userId).contains r)

/-! ### Concrete fixtures used by counterexamples and witnesses -/

/-- Catalog plan "basic": price `price_basic`, role 10. -/
def fxPlanA : SubscriptionPlan := ⟨1, "price_basic", 10⟩

/-- Catalog plan "pro": price `price_pro`, role 20. -/
def fxPlanB : SubscriptionPlan := ⟨2, "price_pro", 20⟩

def fxCatalog : List SubscriptionPlan := [fxPlanA, fxPlanB]

def fxProfile : MiUserProfile := ⟨1, "cus_1"⟩

def fxCfg : StripeConfig := ⟨true⟩

/-- A user with no subscription state at all. -/
def fxFreshUser : MiUser := ⟨1, "none", none, none⟩

def fxFreshDb : DB := ⟨[fxFreshUser], [fxProfile], fxCatalog, []⟩

/-- A user on plan A with subscription `sub_1`, holding role 10. -/
def fxPlanAUser : MiUser := ⟨1, "active", some 1, some "sub_1"⟩

def fxPlanADb : DB := ⟨[fxPlanAUser], [fxProfile], fxCatalog, [(1, 10)]⟩

/-- A user whose stored external subscription id is the empty string:
non-null, but falsy for the JS truthiness test of the foreign-event guard. -/
def fxEmptyIdUser : MiUser := ⟨1, "none", some 1, some ""⟩

def fxEmptyIdDb : DB := ⟨[fxEmptyIdUser], [fxProfile], fxCatalog, [(1, 10)]⟩

def fxSubActiveA : StripeSubscription :=
  ⟨"sub_1", "cus_1", "active", "price_basic", false⟩

def fxSubActiveB : StripeSubscription :=
  ⟨"sub_1", "cus_1", "active", "price_pro", false⟩

def fxSubIncompleteA : StripeSubscription :=
  ⟨"sub_1", "cus_1", "incomplete", "price_basic", false⟩

def fxSubTrialingA : StripeSubscription :=
  ⟨"sub_x", "cus_1", "trialing", "price_basic", false⟩

def fxSubDeletedA : StripeSubscription :=
  ⟨"sub_1", "cus_1", "canceled", "price_basic", false⟩

def fxSubDeletedB : StripeSubscription :=
  ⟨"sub_1", "cus_1", "canceled", "price_pro", false⟩

/-- An `updated` snapshot for a different subscription (`sub_2`) than the
stored one. -/
def fxSubForeign : StripeSubscription :=
  ⟨"sub_2", "cus_1", "active", "price_basic", false⟩

def fxEventFoo : StripeEvent := ⟨"foo.bar", fxSubActiveA, false⟩

def fxEventCreatedA : StripeEvent :=
  ⟨"customer.subscription.created", fxSubActiveA, false⟩

def fxReqFoo : WebhookRequest := ⟨true, true, true, fxEventFoo⟩

def fxReqBadSig : WebhookRequest := ⟨true, true, false, fxEventFoo⟩

def fxReqCreatedA : WebhookRequest := ⟨true, true, true, fxEventCreatedA⟩

/-- The handler result of a concrete `created` request on the fresh user
(extracted from `webhookPost`; the fallback branch is never taken). -/
def fxC8res : HandlerResult :=
  match webhookPost fxCfg fxReqCreatedA fxFreshDb with
  | .ok r => r
  | .error _ => { db := fxFreshDb, status := 0, repoReads := 0,
                  repoWrites := 0, roleReads := 0, notifs := [],
                  warnings := 0, infos := 0, errors := 0 }

/-- Transition result of deleting plan A's subscription for the plan-A user
(fallback branch never taken). -/
def fxDelAt : TxResult :=
  match handleDeleted fxPlanADb 1 fxSubDeletedA with
  | .ok t => t
  | .error _ => ⟨fxPlanADb, 0, 0, 0, [], 0⟩

/-- Transition result of a `deleted` event whose price resolves to plan B
while the user is stored on plan A (fallback branch never taken). -/
def fxDelBt : TxResult :=
  match handleDeleted fxPlanADb 1 fxSubDeletedB with
  | .ok t => t
  | .error _ => ⟨fxPlanADb, 0, 0, 0, [], 0⟩

/-- Transition result of an active `updated` event switching the plan-A user
to plan B (fallback branch never taken). -/
def fxUpdBt : TxResult :=
  match handleUpdated fxPlanADb 1 fxSubActiveB false with
  | .ok t => t
  | .error _ => ⟨fxPlanADb, 0, 0, 0, [], 0⟩

/-- A state where the plan-A user already holds plan B's role 20 as well
(reachable e.g. after an `incomplete_expired` update cleared the plan
reference without revoking the role, followed by a new subscription). -/
def fxBothDb : DB := ⟨[fxPlanAUser], [fxProfile], fxCatalog, [(1, 10), (1, 20)]⟩

/-- Transition result of the plan change to plan B when role 20 is already
held (fallback branch never taken). -/
def fxUpdBothT : TxResult :=
  match handleUpdated fxBothDb 1 fxSubActiveB false with
  | .ok t => t
  | .error _ => ⟨fxBothDb, 0, 0, 0, [], 0⟩

/-! ### Basic lemmas about the repository and role-store operations -/

theorem findUser_id {db : DB} {uid : Nat} {u : MiUser}
    (h : findUser db uid = some u) : u.id = uid := by
  have := List.find?_some h
  simpa using this

theorem findUser_mem {db : DB} {uid : Nat} {u : MiUser}
    (h : findUser db uid = some u) : u ∈ db.users :=
  List.mem_of_find?_eq_some h

theorem findPlanByPrice_mem {db : DB} {pr : String} {p : SubscriptionPlan}
    (h : findPlanByPrice db pr = some p) : p ∈ db.subscriptionPlans :=
  List.mem_of_find?_eq_some h

theorem findPlanByPrice_price {db : DB} {pr : String} {p : SubscriptionPlan}
    (h : findPlanByPrice db pr = some p) : p.stripePriceId = pr := by
  have := List.find?_some h
  simpa using this

theorem findPlanById_mem {db : DB} {pid : Nat} {p : SubscriptionPlan}
    (h : findPlanById db pid = some p) : p ∈ db.subscriptionPlans :=
  List.mem_of_find?_eq_some h

theorem findPlanById_id {db : DB} {pid : Nat} {p : SubscriptionPlan}
    (h : findPlanById db pid = some p) : p.id = pid := by
  have := List.find?_some h
  simpa using this

theorem find_id_self {l : List SubscriptionPlan} {p : SubscriptionPlan}
    (hids : (l.map (fun q => q.id)).Nodup) (hp : p ∈ l) :
    l.find? (fun q => q.id == p.id) = some p := by
  induction l with
  | nil => cases hp
  | cons q l ih =>
    simp only [List.map_cons, List.nodup_cons, List.mem_map] at hids
    rcases List.mem_cons.mp hp with h | h
    · subst h
      simp
    · have hqne : q.id ≠ p.id := by
        intro he
        exact hids.1 ⟨p, h, he.symm⟩
      rw [List.find?_cons_of_neg]
      · exact ih hids.2 h
      · simp [hqne]

/-- With distinct plan ids in the catalog, looking a plan's own id back up
returns that plan. -/
theorem findPlanById_self {db : DB} {p : SubscriptionPlan}
    (hids : (db.subscriptionPlans.map (fun q => q.id)).Nodup)
    (hp : p ∈ db.subscriptionPlans) :
    findPlanById db p.id = some p :=
  find_id_self hids hp

theorem roleId_inj_aux {l : List SubscriptionPlan} {p q : SubscriptionPlan}
    (hrids : (l.map (fun r => r.roleId)).Nodup)
    (hp : p ∈ l) (hq : q ∈ l) (h : p.roleId = q.roleId) : p = q := by
  induction l with
  | nil => cases hp
  | cons a l ih =>
    simp only [List.map_cons, List.nodup_cons, List.mem_map] at hrids
    rcases List.mem_cons.mp hp with h1 | h1 <;>
      rcases List.mem_cons.mp hq with h2 | h2
    · rw [h1, h2]
    · exact absurd ⟨q, h2, by rw [← h, h1]⟩ hrids.1
    · exact absurd ⟨p, h1, by rw [h, h2]⟩ hrids.1
    · exact ih hrids.2 h1 h2

/-- With distinct role ids in the catalog, two catalog plans with the same
role id are equal. -/
theorem plan_roleId_inj {db : DB} {p q : SubscriptionPlan}
    (hrids : (db.subscriptionPlans.map (fun r => r.roleId)).Nodup)
    (hp : p ∈ db.subscriptionPlans) (hq : q ∈ db.subscriptionPlans)
    (h : p.roleId = q.roleId) : p = q :=
  roleId_inj_aux hrids hp hq h

theorem mem_getUserRoles {db : DB} {uid r : Nat} :
    r ∈ getUserRoles db uid ↔ (uid, r) ∈ db.roleAssignments := by
  unfold getUserRoles
  constructor
  · intro h
    rcases List.mem_map.mp h with ⟨a, ha, hr⟩
    have := List.mem_filter.mp ha
    have h1 : a.1 = uid := by simpa using this.2
    have : a = (uid, r) := by
      cases a
      simp_all
    rw [← this]
    exact (List.mem_filter.mp ha).1
  · intro h
    exact List.mem_map.mpr ⟨(uid, r), List.mem_filter.mpr ⟨h, by simp⟩, rfl⟩

theorem isCatalogRole_iff {db : DB} {r : Nat} :
    isCatalogRole db r = true ↔ ∃ p ∈ db.subscriptionPlans, p.roleId = r := by
  unfold isCatalogRole
  simp [List.any_eq_true]

theorem mem_subRoleIds {db : DB} {uid r : Nat} :
    r ∈ subRoleIds db uid ↔
      r ∈ getUserRoles db uid ∧ isCatalogRole db r = true := by
  unfold subRoleIds
  simp [List.mem_filter]

theorem subRoleInvariant_iff {db : DB} {uid : Nat} :
    subRoleInvariant db uid = true ↔
      ∀ r, r ∈ subRoleIds db uid ↔ r ∈ planRoleIds db uid := by
  unfold subRoleInvariant
  simp only [Bool.and_eq_true, List.all_eq_true, List.elem_iff]
  constructor
  · intro ⟨h1, h2⟩ r
    exact ⟨h1 r, h2 r⟩
  · intro h
    exact ⟨fun r hr => (h r).mp hr, fun r hr => (h r).mpr hr⟩

/-! ### How each operation transforms the observable state -/

theorem users_assignRole (db : DB) (u r : Nat) :
    (assignRole db u r).users = db.users := rfl

theorem users_unassignRole (db : DB) (u r : Nat) :
    (unassignRole db u r).users = db.users := rfl

theorem plans_assignRole (db : DB) (u r : Nat) :
    (assignRole db u r).subscriptionPlans = db.subscriptionPlans := rfl

theorem plans_unassignRole (db : DB) (u r : Nat) :
    (unassignRole db u r).subscriptionPlans = db.subscriptionPlans := rfl

theorem plans_updateUserRow (db : DB) (i : Nat) (f : MiUser → MiUser) :
    (updateUserRow db i f).subscriptionPlans = db.subscriptionPlans := rfl

theorem roles_updateUserRow (db : DB) (i : Nat) (f : MiUser → MiUser) :
    (updateUserRow db i f).roleAssignments = db.roleAssignments := rfl

theorem getUserRoles_updateUserRow (db : DB) (i : Nat) (f : MiUser → MiUser)
    (u : Nat) : getUserRoles (updateUserRow db i f) u = getUserRoles db u := rfl

theorem getUserRoles_assignRole (db : DB) (u r : Nat) :
    getUserRoles (assignRole db u r) u = getUserRoles db u ++ [r] := by
  unfold getUserRoles assignRole
  simp [List.filter_append]

theorem unassign_filter_comm (l : List (Nat × Nat)) (u r : Nat) :
    ((l.filter (fun a => ¬(a.1 = u ∧ a.2 = r))).filter
        (fun a => a.1 == u)).map (fun a => a.2) =
      ((l.filter (fun a => a.1 == u)).map (fun a => a.2)).filter
        (fun x => x ≠ r) := by
  induction l with
  | nil => rfl
  | cons a l ih =>
    by_cases h1 : a.1 = u
    · by_cases h2 : a.2 = r
      · simpa [List.filter_cons, h1, h2] using ih
      · simpa [List.filter_cons, h1, h2] using ih
    · simpa [List.filter_cons, h1] using ih

theorem getUserRoles_unassignRole (db : DB) (u r : Nat) :
    getUserRoles (unassignRole db u r) u =
      (getUserRoles db u).filter (fun x => x ≠ r) :=
  unassign_filter_comm db.roleAssignments u r

theorem find_update_comm (l : List MiUser) (i : Nat) (f : MiUser → MiUser)
    (hf : ∀ u, (f u).id = u.id) :
    (l.map (fun u => if u.id == i then f u else u)).find?
        (fun u => u.id == i) =
      (l.find? (fun u => u.id == i)).map f := by
  induction l with
  | nil => rfl
  | cons u l ih =>
    by_cases h : u.id = i
    · simp [h, hf u]
    · simpa [h] using ih

theorem findUser_updateUserRow {db : DB} {i : Nat} {f : MiUser → MiUser}
    (hf : ∀ u, (f u).id = u.id) :
    findUser (updateUserRow db i f) i = (findUser db i).map f :=
  find_update_comm db.users i f hf

theorem findUser_unassignRole (db : DB) (u r i : Nat) :
    findUser (unassignRole db u r) i = findUser db i := rfl

theorem findUser_assignRole (db : DB) (u r i : Nat) :
    findUser (assignRole db u r) i = findUser db i := rfl

/-- When no role of the snapshot satisfies the unassign condition, the loop
leaves the state untouched. -/
theorem unassignOtherPlanRoles_id {db : DB} {u keep : Nat}
    {roleIds roles : List Nat}
    (h : ∀ r ∈ roles, ¬(roleIds.contains r ∧ r ≠ keep)) :
    unassignOtherPlanRoles db u roleIds keep roles = db := by
  unfold unassignOtherPlanRoles
  induction roles with
  | nil => rfl
  | cons a l ih =>
    rw [List.foldl_cons, if_neg (h a (List.mem_cons_self a l))]
    exact ih (fun r hr => h r (List.mem_cons_of_mem a hr))

theorem users_unassignOtherPlanRoles (db : DB) (u keep : Nat)
    (roleIds roles : List Nat) :
    (unassignOtherPlanRoles db u roleIds keep roles).users = db.users := by
  unfold unassignOtherPlanRoles
  induction roles generalizing db with
  | nil => rfl
  | cons a l ih =>
    rw [List.foldl_cons, ih]
    split <;> rfl

theorem plans_unassignOtherPlanRoles (db : DB) (u keep : Nat)
    (roleIds roles : List Nat) :
    (unassignOtherPlanRoles db u roleIds keep roles).subscriptionPlans =
      db.subscriptionPlans := by
  unfold unassignOtherPlanRoles
  induction roles generalizing db with
  | nil => rfl
  | cons a l ih =>
    rw [List.foldl_cons, ih]
    split <;> rfl

theorem findUser_congr {db1 db2 : DB} (h : db1.users = db2.users) (i : Nat) :
    findUser db1 i = findUser db2 i := by
  unfold findUser
  rw [h]

/-- Every branch of the active-status reconciliation step leaves the user
table untouched. -/
theorem updatedActiveStep_users {db : DB} {user : MiUser}
    {plan : SubscriptionPlan} {prev : Bool} {out : DB × Nat × Nat × Nat}
    (h : updatedActiveStep db user plan prev = .ok out) :
    out.1.users = db.users := by
  unfold updatedActiveStep at h
  simp only [] at h
  repeat' split at h
  all_goals cases h
  all_goals
    simp [users_assignRole, users_unassignRole, users_unassignOtherPlanRoles]

/-- Every branch of the active-status reconciliation step leaves the plan
catalog untouched. -/
theorem updatedActiveStep_plans {db : DB} {user : MiUser}
    {plan : SubscriptionPlan} {prev : Bool} {out : DB × Nat × Nat × Nat}
    (h : updatedActiveStep db user plan prev = .ok out) :
    out.1.subscriptionPlans = db.subscriptionPlans := by
  unfold updatedActiveStep at h
  simp only [] at h
  repeat' split at h
  all_goals cases h
  all_goals
    simp [plans_assignRole, plans_unassignRole, plans_unassignOtherPlanRoles]

theorem updatedRowPatch_id (sub : StripeSubscription) (user : MiUser)
    (plan : SubscriptionPlan) : ∀ u, (updatedRowPatch sub user plan u).id = u.id :=
  fun _ => rfl

theorem findUser_after_update {db1 db : DB} {userId : Nat} {user : MiUser}
    (hu : db1.users = db.users) (huser : findUser db userId = some user)
    (f : MiUser → MiUser) (hf : ∀ u, (f u).id = u.id) :
    findUser (updateUserRow db1 userId f) userId = some (f user) := by
  rw [findUser_updateUserRow hf, findUser_congr hu, huser]
  rfl

/-- With the foreign-event guard passed, applying the row patch to the user
row itself always lands the event's subscription id in the external-id
column (keeping the stored value only when it already equals it). -/
theorem updatedRowPatch_user {user : MiUser} {sub : StripeSubscription}
    {plan : SubscriptionPlan} (hguard : foreignGuard user sub = false) :
    updatedRowPatch sub user plan user =
      { user with
        subscriptionStatus := sub.status,
        subscriptionPlanId :=
          if sub.status ≠ "incomplete_expired" then some plan.id else none,
        stripeSubscriptionId :=
          if sub.status ≠ "incomplete_expired" then some sub.id else none } := by
  unfold updatedRowPatch
  by_cases ht : strTruthy user.stripeSubscriptionId = true
  · have heq : user.stripeSubscriptionId = some sub.id := by
      by_contra hne
      simp [foreignGuard, ht, hne] at hguard
    simp [ht, heq]
  · have ht' : strTruthy user.stripeSubscriptionId = false :=
      Bool.not_eq_true _ ▸ Bool.of_not_eq_true ht
    simp [ht']

/-! ### Claim theorems -/

/-- C7: for every request whose signature header is present but whose
signature verification against the raw body and configured secret fails,
the response is 400 and no data-store write occurs (in fact nothing at all
is read or written and the database is untouched). -/
theorem c7_invalid_signature_rejected (cfg : StripeConfig)
    (req : WebhookRequest) (db : DB) (hc : cfg.configured = true)
    (hb : req.hasBody = true) (hs : req.hasSignature = true)
    (hv : req.signatureValid = false) :
    webhookPost cfg req db =
      .ok { db := db, status := 400, repoReads := 0, repoWrites := 0,
            roleReads := 0, notifs := [], warnings := 0, infos := 0,
            errors := 1 } := by
  unfold webhookPost
  simp [hc, hb, hs, hv]

/-- Witness for C7 at a concrete request with a bad signature. -/
theorem c7_invalid_signature_rejected_witness :
    webhookPost fxCfg fxReqBadSig fxFreshDb =
      .ok { db := fxFreshDb, status := 400, repoReads := 0, repoWrites := 0,
            roleReads := 0, notifs := [], warnings := 0, infos := 0,
            errors := 1 } :=
  c7_invalid_signature_rejected fxCfg fxReqBadSig fxFreshDb rfl rfl rfl rfl

/-- C3: for every `created` event, if the looked-up user already has a
non-null stored external subscription id, the handler performs zero
additional writes (no role change, no user-row update, no notification)
and returns after one info log, so replaying a `created` event is a no-op. -/
theorem c3_created_replay_noop (db : DB) (userId : Nat)
    (sub : StripeSubscription) (plan : SubscriptionPlan) (user : MiUser)
    (s : String) (hplan : findPlanByPrice db sub.priceId = some plan)
    (huser : findUser db userId = some user)
    (hsub : user.stripeSubscriptionId = some s) :
    handleCreated db userId sub =
      .ok { db := db, repoReads := 2, repoWrites := 0, roleReads := 0,
            notifs := [], infos := 1 } := by
  unfold handleCreated
  rw [hplan, huser]
  simp [hsub]
  rfl

/-- Witness for C3: a user already storing `sub_1` processed by a `created`
event. -/
theorem c3_created_replay_noop_witness :
    handleCreated fxPlanADb 1 fxSubActiveA =
      .ok { db := fxPlanADb, repoReads := 2, repoWrites := 0, roleReads := 0,
            notifs := [], infos := 1 } :=
  c3_created_replay_noop fxPlanADb 1 fxSubActiveA fxPlanA fxPlanAUser "sub_1"
    rfl rfl rfl

/-- C4 (amended): for every `updated` event whose embedded subscription id
differs from the user's stored non-null, non-empty external subscription id,
the handler makes no role changes and no persistence changes at all. -/
theorem c4_amended_foreign_event_noop (db : DB) (userId : Nat)
    (sub : StripeSubscription) (prev : Bool) (plan : SubscriptionPlan)
    (user : MiUser) (s : String) (huser : findUser db userId = some user)
    (hplan : findPlanByPrice db sub.priceId = some plan)
    (hid : user.stripeSubscriptionId = some s) (hne : s ≠ "")
    (hdiff : s ≠ sub.id) :
    handleUpdated db userId sub prev =
      .ok { db := db, repoReads := 2, repoWrites := 0, roleReads := 0,
            notifs := [], infos := 0 } := by
  unfold handleUpdated
  rw [huser, hplan]
  have hg : foreignGuard user sub = true := by
    simp [foreignGuard, strTruthy, hid, hne, hdiff]
  simp [hg]

/-- Witness for C4 (amended): stored id `sub_1`, event for `sub_2`. -/
theorem c4_amended_foreign_event_noop_witness :
    handleUpdated fxPlanADb 1 fxSubForeign false =
      .ok { db := fxPlanADb, repoReads := 2, repoWrites := 0, roleReads := 0,
            notifs := [], infos := 0 } :=
  c4_amended_foreign_event_noop fxPlanADb 1 fxSubForeign false fxPlanA
    fxPlanAUser "sub_1" rfl rfl rfl (by decide) (by decide)

/-- Counterexample to C4 as stated: a stored external subscription id that
is non-null but empty (`some ""`) differs from the event's id `sub_x`, yet
the guard (which tests JS truthiness, not nullness) lets the event through:
the user row is written and a notification published. -/
theorem c4_counterexample_empty_stored_id :
    fxEmptyIdUser.stripeSubscriptionId = some "" ∧
    "" ≠ fxSubTrialingA.id ∧
    (handleUpdated fxEmptyIdDb 1 fxSubTrialingA false).map
        (fun t => (t.repoWrites, t.notifs)) = .ok (1, [1]) :=
  ⟨rfl, by decide, rfl⟩

/-- C5 (amended): a validly signed event of unrecognized type gets a 400
response and exactly one warning, with no data-store write — but one
repository read (the user-profile lookup of preprocessing) does occur. -/
theorem c5_amended_unknown_type (cfg : StripeConfig) (req : WebhookRequest)
    (db : DB) (prof : MiUserProfile) (hc : cfg.configured = true)
    (hb : req.hasBody = true) (hs : req.hasSignature = true)
    (hv : req.signatureValid = true)
    (hprof : findUserProfile db req.event.obj.customer = some prof)
    (h1 : req.event.type ≠ "customer.subscription.created")
    (h2 : req.event.type ≠ "customer.subscription.updated")
    (h3 : req.event.type ≠ "customer.subscription.deleted") :
    webhookPost cfg req db =
      .ok { db := db, status := 400, repoReads := 1, repoWrites := 0,
            roleReads := 0, notifs := [], warnings := 1, infos := 0,
            errors := 0 } := by
  unfold webhookPost
  simp only [hc, hb, hs, hv, not_true, if_false, ite_false, ite_true,
    Bool.not_true, decide_True, decide_False]
  rw [hprof]

/-- Witness for C5 (amended) at the event type `foo.bar`. -/
theorem c5_amended_unknown_type_witness :
    webhookPost fxCfg fxReqFoo fxFreshDb =
      .ok { db := fxFreshDb, status := 400, repoReads := 1, repoWrites := 0,
            roleReads := 0, notifs := [], warnings := 1, infos := 0,
            errors := 0 } :=
  c5_amended_unknown_type fxCfg fxReqFoo fxFreshDb fxProfile rfl rfl rfl rfl
    rfl (by decide) (by decide) (by decide)

/-- Counterexample to C5 as stated: for the unknown type `foo.bar` the
handler does respond 400 with one warning, but it performs one data-store
read (the user-profile lookup), contradicting "no data-store access". -/
theorem c5_counterexample_profile_read :
    (webhookPost fxCfg fxReqFoo fxFreshDb).map
        (fun r => (r.status, r.warnings, r.repoReads)) =
      .ok (400, 1, 1) := rfl

/-- C8: for every recognized event type, once preprocessing succeeds the
204 response is set before any transition logic runs: the handler's final
status is 204 when it completes, and even when a transition throws, the
reply code standing at the moment of the throw is 204. -/
theorem c8_recognized_type_204 (cfg : StripeConfig) (req : WebhookRequest)
    (db : DB) (prof : MiUserProfile) (hc : cfg.configured = true)
    (hb : req.hasBody = true) (hs : req.hasSignature = true)
    (hv : req.signatureValid = true)
    (hprof : findUserProfile db req.event.obj.customer = some prof)
    (htype : req.event.type = "customer.subscription.created" ∨
             req.event.type = "customer.subscription.updated" ∨
             req.event.type = "customer.subscription.deleted") :
    (∀ res, webhookPost cfg req db = .ok res → res.status = 204) ∧
    (∀ e, webhookPost cfg req db = .error e → e = some 204) := by
  unfold webhookPost
  simp only [hc, hb, hs, hv, not_true, if_false, ite_false, ite_true,
    Bool.not_true]
  rw [hprof]
  rcases htype with h | h | h <;> rw [h] <;> refine ⟨?_, ?_⟩ <;>
    intro x hx <;> (repeat' split at hx) <;>
    first
    | (cases hx; rfl)
    | simp_all [liftTx]

/-- Witness for C8 at a concrete `created` request. -/
theorem c8_recognized_type_204_witness : fxC8res.status = 204 :=
  (c8_recognized_type_204 fxCfg fxReqCreatedA fxFreshDb fxProfile rfl rfl rfl
    rfl rfl (Or.inl rfl)).1 fxC8res (by rfl)

/-- C6: a `deleted` event matching the stored external subscription id, for
a user holding the event plan's role, ends with that role revoked, the
status set to the event's terminal value `canceled`, the plan reference and
external id null, and one updated-profile notification. -/
theorem c6_deleted_finalizes (db : DB) (userId : Nat)
    (sub : StripeSubscription) (plan : SubscriptionPlan) (user : MiUser)
    (t : TxResult) (hplan : findPlanByPrice db sub.priceId = some plan)
    (huser : findUser db userId = some user)
    (hguard : foreignGuard user sub = false)
    (hrole : plan.roleId ∈ getUserRoles db userId)
    (hstat : sub.status = "canceled")
    (hok : handleDeleted db userId sub = .ok t) :
    plan.roleId ∉ getUserRoles t.db userId ∧
    findUser t.db userId = some { user with
                                  subscriptionStatus := "canceled",
                                  subscriptionPlanId := none,
                                  stripeSubscriptionId := none } ∧
    t.notifs = [userId] ∧ t.repoWrites = 1 := by
  have hcont : (getUserRoles db userId).contains plan.roleId = true :=
    List.elem_iff.mpr hrole
  unfold handleDeleted at hok
  rw [hplan, huser] at hok
  simp only [] at hok
  rw [if_neg (by simp [hguard])] at hok
  try simp only [] at hok
  rw [if_pos hcont] at hok
  cases hok
  refine ⟨?_, ?_, rfl, rfl⟩
  · rw [getUserRoles_updateUserRow, getUserRoles_unassignRole]
    simp [List.mem_filter]
  · dsimp only
    rw [findUser_after_update (users_unassignRole db userId plan.roleId) huser
      (fun u => { u with subscriptionStatus := sub.status,
                         subscriptionPlanId := none,
                         stripeSubscriptionId := none })
      (fun u => rfl), hstat]

/-- Witness for C6 at the concrete plan-A user and a matching `deleted`
event. -/
theorem c6_deleted_finalizes_witness :
    findUser fxDelAt.db 1 = some ⟨1, "canceled", none, none⟩ ∧
    fxDelAt.notifs = [1] ∧ fxDelAt.repoWrites = 1 := by
  have h := c6_deleted_finalizes fxPlanADb 1 fxSubDeletedA fxPlanA
    fxPlanAUser fxDelAt rfl rfl rfl (by decide) rfl rfl
  exact ⟨h.2.1, h.2.2.1, h.2.2.2⟩

/-- C9: an `updated` event that passes the foreign-event guard and is not
skipped by the pending-cancellation case persists the event's status, the
plan resolved from its price id, and its subscription id to the user row,
except that an `incomplete_expired` status clears plan and external id to
null. -/
theorem c9_updated_persists (db : DB) (userId : Nat)
    (sub : StripeSubscription) (prev : Bool) (plan : SubscriptionPlan)
    (user : MiUser) (t : TxResult)
    (huser : findUser db userId = some user)
    (hplan : findPlanByPrice db sub.priceId = some plan)
    (hguard : foreignGuard user sub = false)
    (hskip : ¬(sub.status ≠ "active" ∧ sub.cancelAtPeriodEnd = true))
    (hok : handleUpdated db userId sub prev = .ok t) :
    findUser t.db userId = some { user with
      subscriptionStatus := sub.status,
      subscriptionPlanId :=
        if sub.status ≠ "incomplete_expired" then some plan.id else none,
      stripeSubscriptionId :=
        if sub.status ≠ "incomplete_expired" then some sub.id else none } := by
  have hid : user.id = userId := findUser_id huser
  unfold handleUpdated at hok
  rw [huser, hplan] at hok
  simp only [] at hok
  rw [if_neg (by simp [hguard])] at hok
  by_cases hact : sub.status = "active"
  · rw [if_pos hact] at hok
    cases hstep : updatedActiveStep db user plan prev with
    | error e =>
      rw [hstep] at hok
      cases hok
    | ok out =>
      rw [hstep] at hok
      obtain ⟨db1, e1, r1, i1⟩ := out
      try simp only [] at hok
      cases hok
      rw [hid]
      rw [findUser_after_update (updatedActiveStep_users hstep) huser _
        (updatedRowPatch_id sub user plan), updatedRowPatch_user hguard, hid]
  · rw [if_neg hact] at hok
    have hcan : sub.cancelAtPeriodEnd = false := by
      cases hc : sub.cancelAtPeriodEnd
      · rfl
      · exact absurd ⟨hact, hc⟩ hskip
    rw [if_neg (by simp [hcan])] at hok
    try simp only [] at hok
    cases hok
    rw [hid]
    rw [findUser_after_update rfl huser _
      (updatedRowPatch_id sub user plan), updatedRowPatch_user hguard, hid]

/-- Witness for C9: the plan-A user switched to plan B by an active
`updated` event; the row ends on plan B with the event's external id. -/
theorem c9_updated_persists_witness :
    findUser fxUpdBt.db 1 = some ⟨1, "active", some 2, some "sub_1"⟩ := by
  have h := c9_updated_persists fxPlanADb 1 fxSubActiveB false fxPlanB
    fxPlanAUser fxUpdBt rfl rfl rfl (by decide) rfl
  exact h

/-- C10: on a `deleted` event the only role ever unassigned is the role of
the plan resolved from the event's price id; a different stored plan's role
survives even though the stored plan reference is cleared to null. -/
theorem c10_deleted_only_event_plan_role (db : DB) (userId : Nat)
    (sub : StripeSubscription) (planE oldPlan : SubscriptionPlan)
    (user : MiUser) (t : TxResult) (oldPlanId : Nat)
    (hplan : findPlanByPrice db sub.priceId = some planE)
    (huser : findUser db userId = some user)
    (hguard : foreignGuard user sub = false)
    (hstored : user.subscriptionPlanId = some oldPlanId)
    (holdPlan : findPlanById db oldPlanId = some oldPlan)
    (hne : oldPlan.roleId ≠ planE.roleId)
    (hheld : oldPlan.roleId ∈ getUserRoles db userId)
    (hok : handleDeleted db userId sub = .ok t) :
    (∀ r, r ∈ getUserRoles db userId → r ≠ planE.roleId →
      r ∈ getUserRoles t.db userId) ∧
    oldPlan.roleId ∈ getUserRoles t.db userId ∧
    findUser t.db userId = some { user with
                                  subscriptionStatus := sub.status,
                                  subscriptionPlanId := none,
                                  stripeSubscriptionId := none } := by
  unfold handleDeleted at hok
  rw [hplan, huser] at hok
  simp only [] at hok
  rw [if_neg (by simp [hguard])] at hok
  try simp only [] at hok
  split at hok <;> cases hok
  · refine ⟨?_, ?_, ?_⟩
    · intro r hr hne'
      rw [getUserRoles_updateUserRow, getUserRoles_unassignRole]
      simp [List.mem_filter, hr, hne']
    · rw [getUserRoles_updateUserRow, getUserRoles_unassignRole]
      simp [List.mem_filter, hheld, hne]
    · dsimp only
      rw [findUser_after_update (users_unassignRole db userId planE.roleId)
        huser
        (fun u => { u with subscriptionStatus := sub.status,
                           subscriptionPlanId := none,
                           stripeSubscriptionId := none })
        (fun u => rfl)]
  · refine ⟨?_, ?_, ?_⟩
    · intro r hr _
      rw [getUserRoles_updateUserRow]
      exact hr
    · rw [getUserRoles_updateUserRow]
      exact hheld
    · dsimp only
      rw [findUser_after_update rfl huser
        (fun u => { u with subscriptionStatus := sub.status,
                           subscriptionPlanId := none,
                           stripeSubscriptionId := none })
        (fun u => rfl)]

/-- Witness for C10: a `deleted` event resolving to plan B while the user is
stored on plan A and holds role 10; role 10 survives, the plan reference is
cleared. -/
theorem c10_deleted_only_event_plan_role_witness :
    10 ∈ getUserRoles fxDelBt.db 1 ∧
    findUser fxDelBt.db 1 = some ⟨1, "canceled", none, none⟩ := by
  have h := c10_deleted_only_event_plan_role fxPlanADb 1 fxSubDeletedB
    fxPlanB fxPlanA fxPlanAUser fxDelBt 1 rfl rfl rfl rfl rfl (by decide)
    (by decide) rfl
  exact ⟨h.2.1, h.2.2⟩

/-- C2: a user granted role R1 through stored plan P1, processed by an
active `updated` event resolving to a different plan P2 with a different
role R2, ends with R2 granted and R1 revoked: R2 is not granted a second
time when already held (its assignment count is unchanged, and 1 when newly
granted), R1 does not survive, and no role other than R1 is revoked and
none other than R2 granted. -/
theorem c2_plan_change_reconciliation (db : DB) (userId : Nat)
    (sub : StripeSubscription) (prev : Bool) (plan1 plan2 : SubscriptionPlan)
    (user : MiUser) (t : TxResult) (p1id : Nat)
    (huser : findUser db userId = some user)
    (hstored : user.subscriptionPlanId = some p1id)
    (holdPlan : findPlanById db p1id = some plan1)
    (hplan2 : findPlanByPrice db sub.priceId = some plan2)
    (hpdiff : plan2.id ≠ p1id)
    (hrdiff : plan2.roleId ≠ plan1.roleId)
    (hguard : foreignGuard user sub = false)
    (hactive : sub.status = "active")
    (hheld : plan1.roleId ∈ getUserRoles db userId)
    (hok : handleUpdated db userId sub prev = .ok t) :
    plan2.roleId ∈ getUserRoles t.db userId ∧
    plan1.roleId ∉ getUserRoles t.db userId ∧
    (getUserRoles t.db userId).count plan2.roleId =
      (if plan2.roleId ∈ getUserRoles db userId then
        (getUserRoles db userId).count plan2.roleId
      else 1) ∧
    (∀ r, r ≠ plan1.roleId → r ≠ plan2.roleId →
      (r ∈ getUserRoles t.db userId ↔ r ∈ getUserRoles db userId)) := by
  have hid : user.id = userId := findUser_id huser
  have hcont1 : (getUserRoles db userId).contains plan1.roleId = true :=
    List.elem_iff.mpr hheld
  unfold handleUpdated at hok
  rw [huser, hplan2] at hok
  simp only [] at hok
  rw [if_neg (by simp [hguard]), if_pos hactive] at hok
  cases hstep : updatedActiveStep db user plan2 prev with
  | error e =>
    rw [hstep] at hok
    cases hok
  | ok out =>
    rw [hstep] at hok
    unfold updatedActiveStep at hstep
    rw [hid] at hstep
    rw [if_neg (by simp [hstored])] at hstep
    rw [if_pos (by simp [hstored, hpdiff])] at hstep
    rw [show user.subscriptionPlanId.getD 0 = p1id by simp [hstored],
      holdPlan] at hstep
    simp only [] at hstep
    rw [if_pos hcont1] at hstep
    simp only [] at hstep
    by_cases hheld2 : plan2.roleId ∈ getUserRoles db userId
    · -- the new plan role is already held: the dedupe check skips assign
      have hc2 : (getUserRoles db userId).contains plan2.roleId = true :=
        List.elem_iff.mpr hheld2
      rw [if_pos hc2] at hstep
      cases hstep
      simp only [] at hok
      cases hok
      dsimp only
      rw [hid]
      have hroles : getUserRoles
          (updateUserRow (unassignRole db userId plan1.roleId) userId
            (updatedRowPatch sub user plan2)) userId =
          (getUserRoles db userId).filter (fun x => x ≠ plan1.roleId) := by
        rw [getUserRoles_updateUserRow, getUserRoles_unassignRole]
      rw [hroles]
      refine ⟨?_, ?_, ?_, ?_⟩
      · exact List.mem_filter.mpr ⟨hheld2, by simp [hrdiff]⟩
      · intro hmem
        have := (List.mem_filter.mp hmem).2
        simp at this
      · rw [if_pos hheld2]
        exact List.count_filter (by simp [hrdiff])
      · intro r hr1 _
        constructor
        · intro hmem
          exact (List.mem_filter.mp hmem).1
        · intro hmem
          exact List.mem_filter.mpr ⟨hmem, by simp [hr1]⟩
    · -- the new plan role is not yet held: it is assigned exactly once
      have hc2 : (getUserRoles db userId).contains plan2.roleId = false :=
        Bool.eq_false_iff.mpr (fun h => hheld2 (List.elem_iff.mp h))
      rw [if_neg (by rw [hc2]; simp)] at hstep
      cases hstep
      simp only [] at hok
      cases hok
      dsimp only
      rw [hid]
      have hroles : getUserRoles
          (updateUserRow (assignRole (unassignRole db userId plan1.roleId)
            userId plan2.roleId) userId (updatedRowPatch sub user plan2))
          userId =
          (getUserRoles db userId).filter (fun x => x ≠ plan1.roleId) ++
            [plan2.roleId] := by
        rw [getUserRoles_updateUserRow, getUserRoles_assignRole,
          getUserRoles_unassignRole]
      rw [hroles]
      refine ⟨?_, ?_, ?_, ?_⟩
      · exact List.mem_append.mpr (Or.inr (by simp))
      · intro hmem
        rcases List.mem_append.mp hmem with hmem | hmem
        · have := (List.mem_filter.mp hmem).2
          simp at this
        · exact hrdiff (List.mem_singleton.mp hmem).symm
      · rw [if_neg hheld2, List.count_append]
        have h1 : ((getUserRoles db userId).filter
            (fun x => x ≠ plan1.roleId)).count plan2.roleId = 0 :=
          List.count_eq_zero.mpr (fun h => hheld2 (List.mem_filter.mp h).1)
        rw [h1]
        simp
      · intro r hr1 hr2
        constructor
        · intro hmem
          rcases List.mem_append.mp hmem with hmem | hmem
          · exact (List.mem_filter.mp hmem).1
          · exact absurd (List.mem_singleton.mp hmem) hr2
        · intro hmem
          exact List.mem_append.mpr (Or.inl
            (List.mem_filter.mpr ⟨hmem, by simp [hr1]⟩))

/-- Witness for C2 exercising the already-held case: the plan-A user who
already holds role 20 is switched to plan B; role 20 survives with its
assignment count unchanged at 1 (no duplicate grant), role 10 is revoked. -/
theorem c2_plan_change_reconciliation_witness :
    20 ∈ getUserRoles fxUpdBothT.db 1 ∧
    (getUserRoles fxUpdBothT.db 1).count 20 = 1 := by
  have h := c2_plan_change_reconciliation fxBothDb 1 fxSubActiveB false
    fxPlanA fxPlanB fxPlanAUser fxUpdBothT 1 rfl rfl rfl rfl (by decide)
    (by decide) rfl rfl (by decide) rfl
  refine ⟨h.1, ?_⟩
  have h3 := h.2.2.1
  rw [if_pos (by decide : fxPlanB.roleId ∈ getUserRoles fxBothDb 1)] at h3
  exact h3.trans (by decide)

theorem findPlanById_congr {db1 db2 : DB}
    (h : db1.subscriptionPlans = db2.subscriptionPlans) (pid : Nat) :
    findPlanById db1 pid = findPlanById db2 pid := by
  unfold findPlanById
  rw [h]

theorem isCatalogRole_congr {db1 db2 : DB}
    (h : db1.subscriptionPlans = db2.subscriptionPlans) (r : Nat) :
    isCatalogRole db1 r = isCatalogRole db2 r := by
  unfold isCatalogRole
  rw [h]

/-- The heart of the plan-role reconciliation: whenever the active-status
step succeeds, starting from a state satisfying the invariant and with a
catalog of distinct plan ids and distinct role ids, the user afterwards
holds exactly the new plan's role among catalog roles. -/
theorem updatedActiveStep_subRoles {db : DB} {user : MiUser}
    {plan : SubscriptionPlan} {prev : Bool} {out : DB × Nat × Nat × Nat}
    (hids : (db.subscriptionPlans.map (fun p => p.id)).Nodup)
    (hrids : (db.subscriptionPlans.map (fun p => p.roleId)).Nodup)
    (hplanMem : plan ∈ db.subscriptionPlans)
    (hfu : findUser db user.id = some user)
    (hinv : ∀ r, r ∈ subRoleIds db user.id ↔ r ∈ planRoleIds db user.id)
    (hstep : updatedActiveStep db user plan prev = .ok out) :
    ∀ r, (r ∈ getUserRoles out.1 user.id ∧ isCatalogRole db r = true) ↔
      r = plan.roleId := by
  have hcatPlan : isCatalogRole db plan.roleId = true :=
    isCatalogRole_iff.mpr ⟨plan, hplanMem, rfl⟩
  unfold updatedActiveStep at hstep
  cases hpid : user.subscriptionPlanId with
  | none =>
    -- branch (a): the plan is newly set, the invariant says no catalog role
    -- is held, the loop is a no-op and the new role is assigned
    have hplanIds : planRoleIds db user.id = [] := by
      unfold planRoleIds
      rw [hfu]
      simp [hpid]
    have hsub : ∀ r, r ∉ subRoleIds db user.id := by
      intro r hr
      have := (hinv r).mp hr
      rw [hplanIds] at this
      cases this
    rw [if_pos (by simp [hpid])] at hstep
    simp only [] at hstep
    have hloop : ∀ r ∈ getUserRoles db user.id,
        ¬((db.subscriptionPlans.map (fun p => p.roleId)).contains r ∧
          r ≠ plan.roleId) := by
      intro r hr hc
      have hcat : isCatalogRole db r = true := by
        rcases List.mem_map.mp (List.elem_iff.mp hc.1) with ⟨p, hp, hpr⟩
        exact isCatalogRole_iff.mpr ⟨p, hp, hpr⟩
      exact hsub r (mem_subRoleIds.mpr ⟨hr, hcat⟩)
    rw [unassignOtherPlanRoles_id hloop] at hstep
    have hc : (getUserRoles db user.id).contains plan.roleId = false :=
      Bool.eq_false_iff.mpr (fun h =>
        hsub _ (mem_subRoleIds.mpr ⟨List.elem_iff.mp h, hcatPlan⟩))
    rw [if_neg (by rw [hc]; simp)] at hstep
    cases hstep
    intro r
    constructor
    · intro ⟨hmem, hcat⟩
      rw [getUserRoles_assignRole] at hmem
      rcases List.mem_append.mp hmem with hmem | hmem
      · exact absurd (mem_subRoleIds.mpr ⟨hmem, hcat⟩) (hsub r)
      · simpa using hmem
    · intro hr
      subst hr
      refine ⟨?_, hcatPlan⟩
      rw [getUserRoles_assignRole]
      exact List.mem_append.mpr (Or.inr (by simp))
  | some pid =>
    rw [if_neg (by simp [hpid])] at hstep
    by_cases hpdiff : plan.id = pid
    · -- branches (c)/(d): same plan; the invariant already grants its role
      rw [if_neg (by simp [hpid, hpdiff])] at hstep
      have hfind : findPlanById db pid = some plan := by
        rw [← hpdiff]
        exact findPlanById_self hids hplanMem
      have hplanIds : planRoleIds db user.id = [plan.roleId] := by
        unfold planRoleIds
        rw [hfu]
        simp only [hpid]
        rw [hfind]
      have hinv' : ∀ r, r ∈ subRoleIds db user.id ↔ r = plan.roleId := by
        intro r
        rw [hinv r, hplanIds, List.mem_singleton]
      have hheld : plan.roleId ∈ getUserRoles db user.id :=
        (mem_subRoleIds.mp ((hinv' plan.roleId).mpr rfl)).1
      have hcont : (getUserRoles db user.id).contains plan.roleId = true :=
        List.elem_iff.mpr hheld
      have hout : out.1 = db := by
        by_cases hp : prev = true
        · rw [if_pos hp] at hstep
          simp only [] at hstep
          rw [if_pos hcont] at hstep
          cases hstep
          rfl
        · rw [if_neg hp] at hstep
          cases hstep
          rfl
      rw [hout]
      intro r
      rw [← hinv' r, mem_subRoleIds]
    · -- branch (b): plan changed; old role revoked, new role granted
      rw [if_pos (by simp [hpid, hpdiff])] at hstep
      have hgetD : user.subscriptionPlanId.getD 0 = pid := by simp [hpid]
      rw [hgetD] at hstep
      cases hold : findPlanById db pid with
      | none =>
        rw [hold] at hstep
        cases hstep
      | some oldPlan =>
        rw [hold] at hstep
        simp only [] at hstep
        have holdMem : oldPlan ∈ db.subscriptionPlans := findPlanById_mem hold
        have holdId : oldPlan.id = pid := findPlanById_id hold
        have hplanIds : planRoleIds db user.id = [oldPlan.roleId] := by
          unfold planRoleIds
          rw [hfu]
          simp only [hpid]
          rw [hold]
        have hinv' : ∀ r, r ∈ subRoleIds db user.id ↔ r = oldPlan.roleId := by
          intro r
          rw [hinv r, hplanIds, List.mem_singleton]
        have hrne : plan.roleId ≠ oldPlan.roleId := by
          intro he
          exact hpdiff (by
            rw [show plan = oldPlan from
              plan_roleId_inj hrids hplanMem holdMem he, holdId])
        have hheld : oldPlan.roleId ∈ getUserRoles db user.id :=
          (mem_subRoleIds.mp ((hinv' oldPlan.roleId).mpr rfl)).1
        have hcont1 : (getUserRoles db user.id).contains oldPlan.roleId =
            true := List.elem_iff.mpr hheld
        have hcont2 : (getUserRoles db user.id).contains plan.roleId =
            false := by
          refine Bool.eq_false_iff.mpr (fun h => ?_)
          exact hrne ((hinv' plan.roleId).mp
            (mem_subRoleIds.mpr ⟨List.elem_iff.mp h, hcatPlan⟩))
        rw [if_pos hcont1] at hstep
        simp only [] at hstep
        rw [if_neg (by rw [hcont2]; simp)] at hstep
        cases hstep
        intro r
        constructor
        · intro ⟨hmem, hcat⟩
          rw [getUserRoles_assignRole, getUserRoles_unassignRole] at hmem
          rcases List.mem_append.mp hmem with hmem | hmem
          · rcases List.mem_filter.mp hmem with ⟨hpre, hner⟩
            have hner' : r ≠ oldPlan.roleId := by simpa using hner
            exact absurd ((hinv' r).mp (mem_subRoleIds.mpr ⟨hpre, hcat⟩))
              hner'
          · simpa using hmem
        · intro hr
          subst hr
          refine ⟨?_, hcatPlan⟩
          rw [getUserRoles_assignRole]
          exact List.mem_append.mpr (Or.inr (by simp))

/-- C1 (amended): the reconciliation invariant — the subscription-granted
roles a user holds are exactly the role of their stored plan — is preserved
by the `updated` transition when the event status is active, given a catalog
with distinct plan ids and distinct role ids.  (The `created`, non-active
`updated`, and mismatched-plan `deleted` paths do not maintain it.) -/
theorem c1_amended_updated_active_invariant (db : DB) (userId : Nat)
    (sub : StripeSubscription) (prev : Bool) (t : TxResult)
    (hids : (db.subscriptionPlans.map (fun p => p.id)).Nodup)
    (hrids : (db.subscriptionPlans.map (fun p => p.roleId)).Nodup)
    (hactive : sub.status = "active")
    (hinv : subRoleInvariant db userId = true)
    (hok : handleUpdated db userId sub prev = .ok t) :
    subRoleInvariant t.db userId = true := by
  unfold handleUpdated at hok
  cases hfu : findUser db userId with
  | none =>
    rw [hfu] at hok
    cases hok
  | some user =>
    rw [hfu] at hok
    cases hfp : findPlanByPrice db sub.priceId with
    | none =>
      rw [hfp] at hok
      cases hok
    | some plan =>
      rw [hfp] at hok
      simp only [] at hok
      have hid : user.id = userId := findUser_id hfu
      by_cases hg : foreignGuard user sub = true
      · rw [if_pos hg] at hok
        cases hok
        exact hinv
      · rw [if_neg hg, if_pos hactive] at hok
        cases hstep : updatedActiveStep db user plan prev with
        | error e =>
          rw [hstep] at hok
          cases hok
        | ok out =>
          obtain ⟨db1, e1, r1, i1⟩ := out
          rw [hstep] at hok
          simp only [] at hok
          cases hok
          dsimp only
          rw [hid, subRoleInvariant_iff]
          intro r
          have hplansEq : (updateUserRow db1 userId
              (updatedRowPatch sub user plan)).subscriptionPlans =
              db.subscriptionPlans := by
            rw [plans_updateUserRow]
            exact updatedActiveStep_plans hstep
          have hplanIds : planRoleIds (updateUserRow db1 userId
              (updatedRowPatch sub user plan)) userId = [plan.roleId] := by
            unfold planRoleIds
            rw [findUser_after_update (updatedActiveStep_users hstep) hfu _
              (updatedRowPatch_id sub user plan)]
            have hsp : (updatedRowPatch sub user plan user).subscriptionPlanId
                = some plan.id := by
              unfold updatedRowPatch
              rw [hactive]
              simp
            simp only [hsp]
            rw [findPlanById_congr hplansEq,
              findPlanById_self hids (findPlanByPrice_mem hfp)]
          rw [hplanIds, List.mem_singleton, mem_subRoleIds,
            getUserRoles_updateUserRow, isCatalogRole_congr hplansEq]
          have key := updatedActiveStep_subRoles hids hrids
            (findPlanByPrice_mem hfp)
            (by rw [hid]; exact hfu)
            (by rw [hid]; exact subRoleInvariant_iff.mp hinv)
            hstep r
          rw [hid] at key
          exact key

/-- Witness for C1 (amended): the plan-A user, satisfying the invariant,
still satisfies it after the active plan-change event to plan B. -/
theorem c1_amended_updated_active_invariant_witness :
    subRoleInvariant fxUpdBt.db 1 = true :=
  c1_amended_updated_active_invariant fxPlanADb 1 fxSubActiveB false fxUpdBt
    (by decide) (by decide) rfl (by decide) rfl

/-- Counterexample to C1 as stated: a `created` event with status
`incomplete` for a fresh user satisfying the invariant sets the user's
`subscriptionPlanId` without granting the plan's role, so after the
transition the subscription-granted role set (empty) differs from the plan
role. -/
theorem c1_counterexample_created_nonactive :
    subRoleInvariant fxFreshDb 1 = true ∧
    (handleCreated fxFreshDb 1 fxSubIncompleteA).map
        (fun t => subRoleInvariant t.db 1) = .ok false :=
  ⟨rfl, rfl⟩

end StripeWebhook
